import Mathlib

/-!
Verification of the stdio-redirect duplex channel in thread_with_file.c.

The model is a shallow sequential embedding of the C source:

* a darray is a byte list (front = oldest) together with its allocated size;
* the two stdio buffers plus the monotonic done flag form a stdio_redirect;
* blocking waits are modelled by their sequential outcome: when the awaited
  condition cannot become true without another thread running, the operation
  is mapped to the value none (it does not terminate in the sequential model);
  interruptible waits additionally take a Bool saying whether a signal is
  pending; loops whose progress depends on re-checked shared state take fuel;
* user memory is modelled as always accessible (no page faults), so the
  fault_in / nofault-copy paths always succeed;
* allocation success for darray growth is an explicit Bool oracle, standing
  for the GFP_NOWAIT / GFP_KERNEL allocation outcome.

Helpers that the source file uses but that live outside it (linux/darray.h,
vsnprintf) are modelled from the spec, and are marked as such below.
-/

/- Error and poll constants, as in the kernel headers. -/

def EPIPE : Int := 32
def EAGAIN : Int := 11
def ERESTARTSYS : Int := 512
def EPOLLIN : Nat := 1
def EPOLLOUT : Nat := 4
def EPOLLERR : Nat := 8
def EPOLLHUP : Nat := 16

def STDIO_REDIRECT_BUFSIZE : Nat := 4096

/-- Model of darray_char: data holds the nr live bytes (front = oldest),
size is the allocated capacity of the backing storage. -/
structure darray_char where
  data : List Nat
  size : Nat
deriving DecidableEq, Repr

def darray_char.nr (d : darray_char) : Nat := d.data.length

/-- Modelled from the spec: darray_room from linux/darray.h (absent from src)
is the number of further bytes the current allocation can hold. -/
def darray_room (d : darray_char) : Nat := d.size - d.nr

/-- Modelled from the spec: darray_make_room_gfp from linux/darray.h (absent
from src) guarantees room for more additional bytes, growing the allocation
when needed; the Bool argument is the allocation-success oracle and the Bool
result is success. On failure the darray is unchanged. The model grows the
allocation to exactly nr + more; the conclusions drawn below are insensitive
to over-allocation up to the nominal capacity. -/
def darray_make_room_gfp (d : darray_char) (more : Nat) (allocOk : Bool) :
    darray_char × Bool :=
  if more ≤ darray_room d then (d, true)
  else if allocOk then ({ d with size := d.nr + more }, true)
  else (d, false)

/-- Modelled from the spec: darray_remove_items at the front removes the n
oldest bytes (the source always removes from buf.data, the front). -/
def darray_remove_items (d : darray_char) (n : Nat) : darray_char :=
  { d with data := d.data.drop n }

/-- The stdio_buf of the source holds a lock, a wait queue and the darray;
only the darray carries sequential state. -/
structure stdio_buf where
  buf : darray_char
deriving DecidableEq, Repr

/-- stdio_redirect: input and output bounded buffers plus the done flag. -/
structure stdio_redirect where
  input : stdio_buf
  output : stdio_buf
  done : Bool
deriving DecidableEq, Repr

def stdio_redirect_has_input (st : stdio_redirect) : Bool :=
  st.input.buf.nr != 0 || st.done

def stdio_redirect_has_output (st : stdio_redirect) : Bool :=
  st.output.buf.nr != 0 || st.done

def stdio_redirect_has_input_space (bufsize : Nat) (st : stdio_redirect) : Bool :=
  decide (st.input.buf.nr < bufsize) || st.done

def stdio_redirect_has_output_space (bufsize : Nat) (st : stdio_redirect) : Bool :=
  decide (st.output.buf.nr < bufsize) || st.done

/-- stdio_redirect_read: the worker-side blocking read. The wait_event_timeout
retry loop terminates exactly when has_input holds; sequentially the state
cannot change, so a call on an open empty channel is none (never returns).
After the wait the source checks done and returns -1 unconditionally; only
otherwise does it consume min len nr bytes from the front. The result carries
the returned int, the new channel state and the bytes copied to the caller. -/
def stdio_redirect_read (st : stdio_redirect) (len : Nat) :
    Option (Int × stdio_redirect × List Nat) :=
  if stdio_redirect_has_input st then
    if st.done then some (-1, st, [])
    else
      let ret := min len st.input.buf.nr
      some ((ret : Int),
        { st with input := ⟨darray_remove_items st.input.buf ret⟩ },
        st.input.buf.data.take ret)
  else none

/-- memchr for the newline byte: index of the first 10 in the list. -/
def memchr_nl : List Nat → Option Nat
  | [] => none
  | c :: rest => if c = 10 then some 0 else (memchr_nl rest).map (· + 1)

/-- stdio_redirect_readline loop body. doneAt is the value of stdio.done as
observed at the i-th re-check of shared state (the sequential interleaving
oracle: the flag is set concurrently by thread_with_stdio_done). Each
wait-retry and each again iteration advances i and consumes fuel; acc is the
bytes copied to ubuf so far (the source's copied counter is acc.length). -/
def stdio_redirect_readline_go (doneAt : Nat → Bool) (fuel i : Nat)
    (buf : darray_char) (len : Nat) (acc : List Nat) :
    Option (Int × darray_char × List Nat) :=
  match fuel with
  | 0 => none
  | fuel + 1 =>
    if buf.nr = 0 ∧ doneAt i = false then
      stdio_redirect_readline_go doneAt fuel (i + 1) buf len acc
    else if doneAt i then
      some (if acc.length ≠ 0 then (acc.length : Int) else -1, buf, acc)
    else
      let b0 := min len buf.nr
      let nl := memchr_nl (buf.data.take b0)
      let b := match nl with
               | some k => min b0 (k + 1)
               | none => b0
      let acc2 := acc ++ buf.data.take b
      let buf2 := darray_remove_items buf b
      let len2 := len - b
      if nl = none ∧ len2 ≠ 0 then
        stdio_redirect_readline_go doneAt fuel (i + 1) buf2 len2 acc2
      else
        some ((acc2.length : Int), buf2, acc2)

/-- stdio_redirect_readline: entry point, copied = 0 and i = 0. -/
def stdio_redirect_readline (doneAt : Nat → Bool) (buf : darray_char)
    (len fuel : Nat) : Option (Int × darray_char × List Nat) :=
  stdio_redirect_readline_go doneAt fuel 0 buf len []

/-- darray_vprintf: s is the byte string the format produces (vsnprintf is
modelled from the spec: it writes the leading bytes of s that fit and reports
the full length). The source loop runs vsnprintf, then while the string plus
its terminator does not fit and darray_make_room_gfp fails; finally
nr += min len room. A successful make_room gives room len + 1 so the whole
string lands; a failed one leaves room unchanged and the excess is dropped. -/
def darray_vprintf (out : darray_char) (allocOk : Bool) (s : List Nat) :
    darray_char :=
  let len := s.length
  let grown :=
    if len + 1 > darray_room out then (darray_make_room_gfp out (len + 1) allocOk).1
    else out
  { grown with data := grown.data ++ s.take (min len (darray_room grown)) }

/-- stdio_redirect_vprintf: the worker-side formatted write, void in the
source. Blocking mode waits for output space (none if the condition cannot
hold sequentially); nonblocking mode returns at once, dropping the message,
when there is no space. When done is set the source returns with no effect
and no error. -/
def stdio_redirect_vprintf (bufsize : Nat) (st : stdio_redirect)
    (nonblocking allocOk : Bool) (s : List Nat) : Option stdio_redirect :=
  if nonblocking = false then
    if stdio_redirect_has_output_space bufsize st = false then none
    else if st.done then some st
    else some { st with output := ⟨darray_vprintf st.output.buf allocOk s⟩ }
  else
    if stdio_redirect_has_output_space bufsize st = false then some st
    else if st.done then some st
    else some { st with output := ⟨darray_vprintf st.output.buf allocOk s⟩ }

/-- thread_with_stdio: thr_done is thr.thr.done (the thread_with_file flag
read by the write loop and by poll); task, fn and exit are plumbing outside
the channel model. -/
structure thread_with_stdio where
  thr_done : Bool
  stdio : stdio_redirect
deriving DecidableEq, Repr

/-- The two wait queues of a channel, recorded when an operation wakes them. -/
inductive wait_queue where
  | input_wait : wait_queue
  | output_wait : wait_queue
deriving DecidableEq, Repr

/-- thread_with_stdio_done: sets both done flags and wakes every waiter on
both buffers; the returned list records the wake_up calls made. -/
def thread_with_stdio_done (t : thread_with_stdio) :
    thread_with_stdio × List wait_queue :=
  ({ thr_done := true, stdio := { t.stdio with done := true } },
   [wait_queue.input_wait, wait_queue.output_wait])

/-- Helper for returning copied ?: ret as the source does. -/
def ret0 (copied : Nat) (ret : Int) : Int :=
  if copied ≠ 0 then (copied : Int) else ret

/-- thread_with_stdio_read copy loop: while len and buf.nr, copy
min len nr bytes out of the front (user memory accessible, so the
fault paths do not fire). Returns the drained buffer, the count and
the bytes copied. -/
def stdio_read_loop (buf : darray_char) (len copied : Nat) (acc : List Nat) :
    darray_char × Nat × List Nat :=
  if len = 0 ∨ buf.nr = 0 then (buf, copied, acc)
  else
    let b := min len buf.nr
    stdio_read_loop (darray_remove_items buf b) (len - b) (copied + b)
      (acc ++ buf.data.take b)
termination_by len
decreasing_by
  simp only [darray_char.nr] at *
  omega

/-- thread_with_stdio_read: the fops read. Blocking mode waits interruptibly
for has_output (intr says a signal is pending; an unsatisfiable wait is
none); nonblocking mode returns EAGAIN when not ready. Then the copy loop
runs and the call returns copied ?: 0. -/
def thread_with_stdio_read (t : thread_with_stdio) (nonblock intr : Bool)
    (len : Nat) : Option (Int × thread_with_stdio × List Nat) :=
  if nonblock then
    if stdio_redirect_has_output t.stdio = false then some (-EAGAIN, t, [])
    else
      let r := stdio_read_loop t.stdio.output.buf len 0 []
      some (ret0 r.2.1 0,
        { t with stdio := { t.stdio with output := ⟨r.1⟩ } }, r.2.2)
  else
    if stdio_redirect_has_output t.stdio then
      let r := stdio_read_loop t.stdio.output.buf len 0 []
      some (ret0 r.2.1 0,
        { t with stdio := { t.stdio with output := ⟨r.1⟩ } }, r.2.2)
    else if intr then some (-ERESTARTSYS, t, [])
    else none

/-- thread_with_stdio_write loop. Each iteration: stop on len = 0; fail with
EPIPE if thr_done; fault in (always succeeds here); under the lock, make
room up to the capacity and append min len room bytes; on progress continue,
otherwise EAGAIN (nonblocking) or wait interruptibly for input space. A wait
whose condition already holds re-runs the loop on fuel (the live-lock when
allocation keeps failing); one that cannot hold sequentially is none unless
a signal is pending. -/
def thread_with_stdio_write_go (bufsize : Nat) (allocOk nonblock intr : Bool)
    (t : thread_with_stdio) (ubuf : List Nat) (copied fuel : Nat) :
    Option (Int × thread_with_stdio) :=
  match fuel with
  | 0 => none
  | fuel + 1 =>
    if ubuf.length = 0 then some (ret0 copied 0, t)
    else if t.thr_done then some (ret0 copied (-EPIPE), t)
    else
      let buf := t.stdio.input.buf
      let buf1 := if buf.nr < bufsize then
                    (darray_make_room_gfp buf
                      (min ubuf.length (bufsize - buf.nr)) allocOk).1
                  else buf
      let b := min ubuf.length (darray_room buf1)
      if b ≠ 0 then
        let buf2 : darray_char := ⟨buf1.data ++ ubuf.take b, buf1.size⟩
        let t2 := { t with stdio := { t.stdio with input := ⟨buf2⟩ } }
        thread_with_stdio_write_go bufsize allocOk nonblock intr t2
          (ubuf.drop b) (copied + b) fuel
      else
        let t1 := { t with stdio := { t.stdio with input := ⟨buf1⟩ } }
        if nonblock then some (ret0 copied (-EAGAIN), t1)
        else if stdio_redirect_has_input_space bufsize t1.stdio then
          thread_with_stdio_write_go bufsize allocOk nonblock intr t1
            ubuf copied fuel
        else if intr then some (ret0 copied (-ERESTARTSYS), t1)
        else none

/-- thread_with_stdio_poll: readiness mask from the two buffers and the
done flags, exactly the three if-bodies of the source. -/
def thread_with_stdio_poll (bufsize : Nat) (t : thread_with_stdio) : Nat :=
  let mask := 0
  let mask := if stdio_redirect_has_output t.stdio then mask ||| EPOLLIN else mask
  let mask := if stdio_redirect_has_input_space bufsize t.stdio then
                mask ||| EPOLLOUT else mask
  let mask := if t.thr_done then mask ||| (EPOLLHUP ||| EPOLLERR) else mask
  mask

/-- Outcome record for run_thread_with_file: the returned value and which of
the cleanup and publication actions ran. -/
structure run_outcome where
  ret : Int
  thread_stopped : Bool
  fd_put : Bool
  fd_installed : Option Nat
  process_woken : Bool
deriving DecidableEq, Repr

/-- The O_CLOEXEC / access-mode flag computation at the top of
run_thread_with_file (O_RDONLY = 0, O_WRONLY = 1, O_RDWR = 2,
O_CLOEXEC = 0o2000000). -/
def run_fd_flags (hasRead hasWrite : Bool) : Nat :=
  524288 * 2 |||
    (if hasRead && hasWrite then 2 else if hasRead then 0
     else if hasWrite then 1 else 0)

/-- run_thread_with_file with its collaborators (kthread_create,
get_unused_fd_flags, anon_inode_getfile, all outside src) given as oracles:
each is ok or an error code. The outcome mirrors the source control flow:
create failure returns at once; the err label puts the fd only when one was
reserved and stops the thread; success wakes the thread, installs the fd and
returns it. -/
def run_thread_with_file (createRes : Except Int Unit) (fdRes : Except Int Nat)
    (fileRes : Except Int Unit) : run_outcome :=
  match createRes with
  | Except.error e => ⟨e, false, false, none, false⟩
  | Except.ok _ =>
    match fdRes with
    | Except.error e => ⟨e, true, false, none, false⟩
    | Except.ok fd =>
      match fileRes with
      | Except.error e => ⟨e, true, true, none, false⟩
      | Except.ok _ => ⟨(fd : Int), false, false, some fd, true⟩

/-! ## Claim C1: the worker-side blocking read on a closed channel -/

/-- Claim C1 counterexample: with the channel closed and one byte (65)
buffered on input, stdio_redirect_read returns -1 (Closed) and consumes
nothing, whereas the claim says it returns 1 having consumed the byte. -/
theorem C1_counterexample :
    stdio_redirect_read ⟨⟨⟨[65], 4096⟩⟩, ⟨⟨[], 0⟩⟩, true⟩ 1 =
      some (-1, ⟨⟨⟨[65], 4096⟩⟩, ⟨⟨[], 0⟩⟩, true⟩, []) ∧ (-1 : Int) ≠ 1 := by
  exact ⟨rfl, by decide⟩

/-- Claim C1 as amended: stdio_redirect_read returns -1 (Closed) whenever
the done flag is observed set, even when the input buffer is nonempty, and
consumes nothing; only on an open channel does it consume up to maxLen of
the buffered bytes and return the count consumed. -/
theorem C1_theorem (st : stdio_redirect) (len : Nat) :
    (st.done = true → stdio_redirect_read st len = some (-1, st, [])) ∧
    (st.done = false → st.input.buf.data ≠ [] →
      stdio_redirect_read st len =
        some (((min len st.input.buf.nr : Nat) : Int),
          { st with input := ⟨darray_remove_items st.input.buf (min len st.input.buf.nr)⟩ },
          st.input.buf.data.take (min len st.input.buf.nr))) := by
  constructor
  · intro h
    simp [stdio_redirect_read, stdio_redirect_has_input, h]
  · intro h hne
    simp [stdio_redirect_read, stdio_redirect_has_input, h, darray_char.nr, hne]

/-- Claim C1 witness: both branches of the amended statement at concrete
inputs: closed with [65, 66] buffered gives -1 untouched; open with [65, 66]
buffered and maxLen 1 consumes exactly [65]. -/
theorem C1_witness :
    stdio_redirect_read ⟨⟨⟨[65, 66], 8⟩⟩, ⟨⟨[], 0⟩⟩, true⟩ 5 =
      some (-1, ⟨⟨⟨[65, 66], 8⟩⟩, ⟨⟨[], 0⟩⟩, true⟩, []) ∧
    stdio_redirect_read ⟨⟨⟨[65, 66], 8⟩⟩, ⟨⟨[], 0⟩⟩, false⟩ 1 =
      some (1, ⟨⟨⟨[66], 8⟩⟩, ⟨⟨[], 0⟩⟩, false⟩, [65]) := by
  constructor
  · exact (C1_theorem ⟨⟨⟨[65, 66], 8⟩⟩, ⟨⟨[], 0⟩⟩, true⟩ 5).1 rfl
  · have h := (C1_theorem ⟨⟨⟨[65, 66], 8⟩⟩, ⟨⟨[], 0⟩⟩, false⟩ 1).2 rfl (by decide)
    simpa using h

/-! ## Claim C3: the concrete capacity-8 scenario -/

/-- Claim C3: with capacity 8 and an empty open channel, the non-blocking
caller write of bytes 65..74 (ABCDEFGHIJ) returns 8 leaving ABCDEFGH
buffered; the worker read of 4 returns ABCD leaving EFGH; the non-blocking
write of 73, 74 (IJ) returns 2 leaving EFGHIJ. -/
theorem C3_theorem :
    thread_with_stdio_write_go 8 true true false
        ⟨false, ⟨⟨⟨[], 0⟩⟩, ⟨⟨[], 0⟩⟩, false⟩⟩
        [65, 66, 67, 68, 69, 70, 71, 72, 73, 74] 0 3 =
      some (8, ⟨false, ⟨⟨⟨[65, 66, 67, 68, 69, 70, 71, 72], 8⟩⟩, ⟨⟨[], 0⟩⟩, false⟩⟩) ∧
    stdio_redirect_read ⟨⟨⟨[65, 66, 67, 68, 69, 70, 71, 72], 8⟩⟩, ⟨⟨[], 0⟩⟩, false⟩ 4 =
      some (4, ⟨⟨⟨[69, 70, 71, 72], 8⟩⟩, ⟨⟨[], 0⟩⟩, false⟩, [65, 66, 67, 68]) ∧
    thread_with_stdio_write_go 8 true true false
        ⟨false, ⟨⟨⟨[69, 70, 71, 72], 8⟩⟩, ⟨⟨[], 0⟩⟩, false⟩⟩ [73, 74] 0 3 =
      some (2, ⟨false, ⟨⟨⟨[69, 70, 71, 72, 73, 74], 8⟩⟩, ⟨⟨[], 0⟩⟩, false⟩⟩) := by
  exact ⟨rfl, rfl, rfl⟩

/-! ## Claim C6: poll on a closed channel -/

/-- Claim C6: once the done flags are set, poll reports the readable bit,
the writable bit and the hangup and error bits, for any buffer contents and
any capacity; poll itself mutates nothing, and by the monotonicity of the
flags this holds for every subsequent call. -/
theorem C6_theorem (bufsize : Nat) (t : thread_with_stdio)
    (h1 : t.stdio.done = true) (h2 : t.thr_done = true) :
    thread_with_stdio_poll bufsize t =
      (EPOLLIN ||| EPOLLOUT ||| (EPOLLHUP ||| EPOLLERR)) := by
  simp [thread_with_stdio_poll, stdio_redirect_has_output,
    stdio_redirect_has_input_space, h1, h2]

/-- Claim C6 witness: a closed channel whose input holds 5000 bytes (over
nominal capacity, so it has no input room) and whose output is empty still
polls as readable, writable, hung up and errored (mask 29). -/
theorem C6_witness :
    thread_with_stdio_poll STDIO_REDIRECT_BUFSIZE
      ⟨true, ⟨⟨⟨List.replicate 5000 0, 5000⟩⟩, ⟨⟨[], 0⟩⟩, true⟩⟩ = 29 := by
  have h := C6_theorem STDIO_REDIRECT_BUFSIZE
    ⟨true, ⟨⟨⟨List.replicate 5000 0, 5000⟩⟩, ⟨⟨[], 0⟩⟩, true⟩⟩ rfl rfl
  rw [h]
  decide

/-! ## Claim C7: non-blocking formatted writes drop what does not fit -/

/-- Claim C7: a non-blocking formatted write that cannot obtain room for the
whole string without blocking surfaces no error (the source is void; the
model returns a plain state): with no output space the message is dropped
whole and the state is untouched; with space but a failing non-blocking
allocation exactly the bytes beyond the existing room are dropped and the
rest is appended. -/
theorem C7_theorem (bufsize : Nat) (st : stdio_redirect) (s : List Nat)
    (hdone : st.done = false) :
    (∀ allocOk, stdio_redirect_has_output_space bufsize st = false →
      stdio_redirect_vprintf bufsize st true allocOk s = some st) ∧
    (stdio_redirect_has_output_space bufsize st = true →
      s.length + 1 > darray_room st.output.buf →
      stdio_redirect_vprintf bufsize st true false s =
        some { st with output := ⟨⟨st.output.buf.data ++
          s.take (darray_room st.output.buf), st.output.buf.size⟩⟩ }) := by
  constructor
  · intro allocOk hsp
    simp [stdio_redirect_vprintf, hsp]
  · intro hsp hgt
    have hle : ¬ (s.length + 1 ≤ darray_room st.output.buf) := by omega
    have hm : min s.length (darray_room st.output.buf) =
        darray_room st.output.buf := by omega
    simp [stdio_redirect_vprintf, hsp, hdone, darray_vprintf,
      darray_make_room_gfp, hle, hgt, hm]

/-- Claim C7 witness: capacity 2 with 2 bytes buffered drops the whole
message 7, 8; capacity 8 with 3 bytes buffered in a 4-byte allocation and a
failing allocation appends only the byte 7 of 7, 8, 9, dropping the rest. -/
theorem C7_witness :
    stdio_redirect_vprintf 2 ⟨⟨⟨[], 0⟩⟩, ⟨⟨[1, 2], 2⟩⟩, false⟩ true true [7, 8] =
      some ⟨⟨⟨[], 0⟩⟩, ⟨⟨[1, 2], 2⟩⟩, false⟩ ∧
    stdio_redirect_vprintf 8 ⟨⟨⟨[], 0⟩⟩, ⟨⟨[1, 2, 3], 4⟩⟩, false⟩ true false [7, 8, 9] =
      some ⟨⟨⟨[], 0⟩⟩, ⟨⟨[1, 2, 3, 7], 4⟩⟩, false⟩ := by
  constructor
  · exact (C7_theorem 2 ⟨⟨⟨[], 0⟩⟩, ⟨⟨[1, 2], 2⟩⟩, false⟩ [7, 8] rfl).1 true (by decide)
  · have h := (C7_theorem 8 ⟨⟨⟨[], 0⟩⟩, ⟨⟨[1, 2, 3], 4⟩⟩, false⟩ [7, 8, 9] rfl).2
      (by decide) (by decide)
    simpa using h

/-! ## Claim C9: non-blocking operations on not-ready buffers -/

/-- Claim C9 counterexample: a non-blocking zero-length caller write on a
full input buffer of an open channel returns 0, not WouldBlock, so the
claim as stated fails for zero-length writes. -/
theorem C9_counterexample :
    thread_with_stdio_write_go STDIO_REDIRECT_BUFSIZE true true false
        ⟨false, ⟨⟨⟨List.replicate 4096 65, 4096⟩⟩, ⟨⟨[], 0⟩⟩, false⟩⟩ [] 0 3 =
      some (0, ⟨false, ⟨⟨⟨List.replicate 4096 65, 4096⟩⟩, ⟨⟨[], 0⟩⟩, false⟩⟩) ∧
    (0 : Int) ≠ -EAGAIN := by
  exact ⟨rfl, by decide⟩

/-- Claim C9 as amended: a non-blocking caller read on an empty output
buffer of an open channel returns EAGAIN with the whole state untouched,
for any requested length; a non-blocking caller write of a nonzero number
of bytes on a full input buffer of an open channel returns EAGAIN with the
whole state untouched. -/
theorem C9_theorem :
    (∀ t intr len, t.stdio.done = false → t.stdio.output.buf.data = [] →
      thread_with_stdio_read t true intr len = some (-EAGAIN, t, [])) ∧
    (∀ t allocOk intr ubuf fuel, t.thr_done = false →
      t.stdio.input.buf.nr = STDIO_REDIRECT_BUFSIZE →
      t.stdio.input.buf.size ≤ STDIO_REDIRECT_BUFSIZE →
      ubuf ≠ [] →
      thread_with_stdio_write_go STDIO_REDIRECT_BUFSIZE allocOk true intr t
          ubuf 0 (fuel + 1) =
        some (-EAGAIN, t)) := by
  constructor
  · intro t intr len hdone hempty
    simp [thread_with_stdio_read, stdio_redirect_has_output, hdone, hempty,
      darray_char.nr]
  · intro t allocOk intr ubuf fuel hdone hfull hsize hne
    obtain ⟨td, ⟨⟨ibuf⟩, obuf, dn⟩⟩ := t
    simp only at hdone hfull hsize
    subst hdone
    have hroom : darray_room ibuf = 0 := by
      simp only [darray_room]
      omega
    have hlt : ¬ (ibuf.nr < STDIO_REDIRECT_BUFSIZE) := by omega
    simp [thread_with_stdio_write_go, hne, hlt, hroom, ret0]

/-- Claim C9 witness: the amended statement at a concrete open channel with
empty output (read of 10 gives EAGAIN) and a concrete full input buffer
(write of one byte gives EAGAIN). -/
theorem C9_witness :
    thread_with_stdio_read
        ⟨false, ⟨⟨⟨[1, 2], 8⟩⟩, ⟨⟨[], 0⟩⟩, false⟩⟩ true false 10 =
      some (-EAGAIN, ⟨false, ⟨⟨⟨[1, 2], 8⟩⟩, ⟨⟨[], 0⟩⟩, false⟩⟩, []) ∧
    thread_with_stdio_write_go STDIO_REDIRECT_BUFSIZE true true false
        ⟨false, ⟨⟨⟨List.replicate 4096 65, 4096⟩⟩, ⟨⟨[], 0⟩⟩, false⟩⟩ [9] 0 2 =
      some (-EAGAIN, ⟨false, ⟨⟨⟨List.replicate 4096 65, 4096⟩⟩, ⟨⟨[], 0⟩⟩, false⟩⟩) := by
  constructor
  · exact C9_theorem.1 ⟨false, ⟨⟨⟨[1, 2], 8⟩⟩, ⟨⟨[], 0⟩⟩, false⟩⟩ false 10 rfl rfl
  · exact C9_theorem.2 ⟨false, ⟨⟨⟨List.replicate 4096 65, 4096⟩⟩, ⟨⟨[], 0⟩⟩, false⟩⟩
      true false [9] 1 rfl (by exact List.length_replicate 4096 65)
      (by exact Nat.le_refl 4096) (by decide)

/-! ## Claim C10: error handling in run_thread_with_file -/

/-- Claim C10: after a successful thread creation, a failed descriptor
reservation or a failed anonymous-file creation stops the created thread,
releases the descriptor when one was reserved, returns the negative error
and installs nothing; on full success the installed non-negative descriptor
is returned and the thread is woken, not stopped. -/
theorem C10_theorem (fdRes : Except Int Nat) (fileRes : Except Int Unit) :
    (∀ e, fdRes = Except.error e → e < 0 →
      (run_thread_with_file (Except.ok ()) fdRes fileRes).ret < 0 ∧
      (run_thread_with_file (Except.ok ()) fdRes fileRes).thread_stopped = true ∧
      (run_thread_with_file (Except.ok ()) fdRes fileRes).fd_installed = none) ∧
    (∀ fd e, fdRes = Except.ok fd → fileRes = Except.error e → e < 0 →
      (run_thread_with_file (Except.ok ()) fdRes fileRes).ret < 0 ∧
      (run_thread_with_file (Except.ok ()) fdRes fileRes).thread_stopped = true ∧
      (run_thread_with_file (Except.ok ()) fdRes fileRes).fd_put = true ∧
      (run_thread_with_file (Except.ok ()) fdRes fileRes).fd_installed = none) ∧
    (∀ fd, fdRes = Except.ok fd → fileRes = Except.ok () →
      (run_thread_with_file (Except.ok ()) fdRes fileRes).ret = (fd : Int) ∧
      0 ≤ (run_thread_with_file (Except.ok ()) fdRes fileRes).ret ∧
      (run_thread_with_file (Except.ok ()) fdRes fileRes).fd_installed = some fd ∧
      (run_thread_with_file (Except.ok ()) fdRes fileRes).thread_stopped = false ∧
      (run_thread_with_file (Except.ok ()) fdRes fileRes).process_woken = true) := by
  refine ⟨?_, ?_, ?_⟩
  · rintro e rfl he
    simpa [run_thread_with_file] using he
  · rintro fd e rfl rfl he
    simpa [run_thread_with_file] using he
  · rintro fd rfl rfl
    simp [run_thread_with_file]

/-- Claim C10 witness: the three branches at concrete oracle outcomes:
descriptor reservation failing with -24, file creation failing with -12
after descriptor 7 was reserved, and full success with descriptor 7. -/
theorem C10_witness :
    run_thread_with_file (Except.ok ()) (Except.error (-24)) (Except.ok ()) =
      ⟨-24, true, false, none, false⟩ ∧
    run_thread_with_file (Except.ok ()) (Except.ok 7) (Except.error (-12)) =
      ⟨-12, true, true, none, false⟩ ∧
    run_thread_with_file (Except.ok ()) (Except.ok 7) (Except.ok ()) =
      ⟨7, false, false, some 7, true⟩ := by
  exact ⟨rfl, rfl, rfl⟩

/-! ## Write-loop helper lemmas -/

theorem darray_make_room_gfp_data (d : darray_char) (more : Nat) (ak : Bool) :
    (darray_make_room_gfp d more ak).1.data = d.data := by
  unfold darray_make_room_gfp
  split
  · rfl
  · split <;> rfl

theorem darray_make_room_gfp_size_le (d : darray_char) (more : Nat) (ak : Bool)
    (n : Nat) (h1 : d.nr + more ≤ n) (h2 : d.size ≤ n) :
    (darray_make_room_gfp d more ak).1.size ≤ n := by
  unfold darray_make_room_gfp
  split
  · exact h2
  · split
    · simpa using h1
    · exact h2

/-- In one write iteration, the buffer after the make-room step; buf is the
input darray of the pre-state. -/
def write_iter_buf1 (bufsize : Nat) (allocOk : Bool) (buf : darray_char)
    (len : Nat) : darray_char :=
  if buf.nr < bufsize then
    (darray_make_room_gfp buf (min len (bufsize - buf.nr)) allocOk).1
  else buf

theorem write_iter_buf1_no_room_unchanged (bufsize : Nat) (allocOk : Bool)
    (buf : darray_char) (len : Nat)
    (h : darray_room (write_iter_buf1 bufsize allocOk buf len) = 0) :
    write_iter_buf1 bufsize allocOk buf len = buf := by
  by_cases hlt : buf.nr < bufsize
  · by_cases hfit : min len (bufsize - buf.nr) ≤ darray_room buf
    · simp [write_iter_buf1, darray_make_room_gfp, hlt, hfit]
    · by_cases hak : allocOk = true
      · exfalso
        have hb : write_iter_buf1 bufsize allocOk buf len =
            { buf with size := buf.nr + min len (bufsize - buf.nr) } := by
          simp [write_iter_buf1, darray_make_room_gfp, hlt, hfit, hak]
        rw [hb] at h
        simp only [darray_room, darray_char.nr] at h
        simp only [darray_char.nr] at hlt
        omega
      · simp [write_iter_buf1, darray_make_room_gfp, hlt, hfit, hak]
  · simp [write_iter_buf1, hlt]

/-- The byte count appended by one write iteration. -/
def write_iter_b (bufsize : Nat) (ak : Bool) (buf : darray_char) (len : Nat) : Nat :=
  min len (darray_room (write_iter_buf1 bufsize ak buf len))

/-- Replace the input darray of a channel state. -/
def write_push (t : thread_with_stdio) (buf : darray_char) : thread_with_stdio :=
  { t with stdio := { t.stdio with input := ⟨buf⟩ } }

@[simp] theorem write_push_thr_done (t : thread_with_stdio) (buf : darray_char) :
    (write_push t buf).thr_done = t.thr_done := rfl

@[simp] theorem write_push_done (t : thread_with_stdio) (buf : darray_char) :
    (write_push t buf).stdio.done = t.stdio.done := rfl

@[simp] theorem write_push_output (t : thread_with_stdio) (buf : darray_char) :
    (write_push t buf).stdio.output = t.stdio.output := rfl

@[simp] theorem write_push_input (t : thread_with_stdio) (buf : darray_char) :
    (write_push t buf).stdio.input = ⟨buf⟩ := rfl

theorem write_push_self (t : thread_with_stdio) :
    write_push t t.stdio.input.buf = t := rfl

/-- One unfolding step of the write loop, phrased with the helper
definitions so that the branch structure is explicit. -/
theorem write_go_succ (bufsize : Nat) (allocOk nonblock intr : Bool)
    (t : thread_with_stdio) (ubuf : List Nat) (copied fuel : Nat) :
    thread_with_stdio_write_go bufsize allocOk nonblock intr t ubuf copied (fuel + 1) =
      (if ubuf.length = 0 then some (ret0 copied 0, t)
       else if t.thr_done then some (ret0 copied (-EPIPE), t)
       else if write_iter_b bufsize allocOk t.stdio.input.buf ubuf.length ≠ 0 then
         thread_with_stdio_write_go bufsize allocOk nonblock intr
           (write_push t
             ⟨(write_iter_buf1 bufsize allocOk t.stdio.input.buf ubuf.length).data ++
                ubuf.take (write_iter_b bufsize allocOk t.stdio.input.buf ubuf.length),
              (write_iter_buf1 bufsize allocOk t.stdio.input.buf ubuf.length).size⟩)
           (ubuf.drop (write_iter_b bufsize allocOk t.stdio.input.buf ubuf.length))
           (copied + write_iter_b bufsize allocOk t.stdio.input.buf ubuf.length) fuel
       else if nonblock then
         some (ret0 copied (-EAGAIN),
           write_push t (write_iter_buf1 bufsize allocOk t.stdio.input.buf ubuf.length))
       else if stdio_redirect_has_input_space bufsize
           (write_push t (write_iter_buf1 bufsize allocOk t.stdio.input.buf ubuf.length)).stdio then
         thread_with_stdio_write_go bufsize allocOk nonblock intr
           (write_push t (write_iter_buf1 bufsize allocOk t.stdio.input.buf ubuf.length))
           ubuf copied fuel
       else if intr then
         some (ret0 copied (-ERESTARTSYS),
           write_push t (write_iter_buf1 bufsize allocOk t.stdio.input.buf ubuf.length))
       else none) := rfl

/-- The write loop never touches the done flags or the output buffer. -/
theorem write_go_preserve (bufsize : Nat) (allocOk nonblock intr : Bool) :
    ∀ fuel t ubuf copied r t2,
      thread_with_stdio_write_go bufsize allocOk nonblock intr t ubuf copied fuel =
        some (r, t2) →
      t2.thr_done = t.thr_done ∧ t2.stdio.done = t.stdio.done ∧
        t2.stdio.output = t.stdio.output := by
  intro fuel
  induction fuel with
  | zero =>
    intro t ubuf copied r t2 h
    simp [thread_with_stdio_write_go] at h
  | succ fuel ih =>
    intro t ubuf copied r t2 h
    rw [write_go_succ] at h
    split at h
    · simp only [Option.some.injEq, Prod.mk.injEq] at h
      rw [← h.2]
      exact ⟨rfl, rfl, rfl⟩
    · split at h
      · simp only [Option.some.injEq, Prod.mk.injEq] at h
        rw [← h.2]
        exact ⟨rfl, rfl, rfl⟩
      · split at h
        · have h3 := ih _ _ _ _ _ h
          simpa using h3
        · split at h
          · simp only [Option.some.injEq, Prod.mk.injEq] at h
            rw [← h.2]
            exact ⟨rfl, rfl, rfl⟩
          · split at h
            · have h3 := ih _ _ _ _ _ h
              simpa using h3
            · split at h
              · simp only [Option.some.injEq, Prod.mk.injEq] at h
                rw [← h.2]
                exact ⟨rfl, rfl, rfl⟩
              · simp at h

theorem write_iter_buf1_bounds (bufsize : Nat) (ak : Bool) (buf : darray_char)
    (len : Nat) (h1 : buf.nr ≤ bufsize) (h2 : buf.size ≤ bufsize) :
    (write_iter_buf1 bufsize ak buf len).nr ≤ bufsize ∧
    (write_iter_buf1 bufsize ak buf len).size ≤ bufsize ∧
    (write_iter_buf1 bufsize ak buf len).data = buf.data := by
  unfold write_iter_buf1
  split
  · next hlt =>
    refine ⟨?_, ?_, darray_make_room_gfp_data _ _ _⟩
    · show (darray_make_room_gfp buf (min len (bufsize - buf.nr)) ak).1.data.length ≤ bufsize
      rw [darray_make_room_gfp_data]
      exact h1
    · exact darray_make_room_gfp_size_le _ _ _ _ (by omega) h2
  · exact ⟨h1, h2, rfl⟩

/-- The input buffer of the channel stays within its nominal capacity across
the whole write loop: every iteration appends at most the room left in an
allocation that is itself never grown past bufsize. -/
theorem write_go_input_bound (bufsize : Nat) (allocOk nonblock intr : Bool) :
    ∀ fuel t ubuf copied r t2,
      t.stdio.input.buf.nr ≤ bufsize →
      t.stdio.input.buf.size ≤ bufsize →
      thread_with_stdio_write_go bufsize allocOk nonblock intr t ubuf copied fuel =
        some (r, t2) →
      t2.stdio.input.buf.nr ≤ bufsize ∧ t2.stdio.input.buf.size ≤ bufsize := by
  intro fuel
  induction fuel with
  | zero =>
    intro t ubuf copied r t2 h1 h2 h
    simp [thread_with_stdio_write_go] at h
  | succ fuel ih =>
    intro t ubuf copied r t2 h1 h2 h
    obtain ⟨hb1, hb2, hb3⟩ :=
      write_iter_buf1_bounds bufsize allocOk t.stdio.input.buf ubuf.length h1 h2
    rw [write_go_succ] at h
    split at h
    · simp only [Option.some.injEq, Prod.mk.injEq] at h
      rw [← h.2]
      exact ⟨h1, h2⟩
    · split at h
      · simp only [Option.some.injEq, Prod.mk.injEq] at h
        rw [← h.2]
        exact ⟨h1, h2⟩
      · split at h
        · next hbne =>
          refine ih _ _ _ _ _ ?_ ?_ h
          · simp only [write_push_input, darray_char.nr, List.length_append,
              List.length_take]
            have hble : write_iter_b bufsize allocOk t.stdio.input.buf ubuf.length ≤
                darray_room (write_iter_buf1 bufsize allocOk t.stdio.input.buf ubuf.length) :=
              min_le_right _ _
            simp only [darray_room, darray_char.nr] at hble
            simp only [darray_char.nr] at hb1 hb2 ⊢
            omega
          · simpa using hb2
        · split at h
          · simp only [Option.some.injEq, Prod.mk.injEq] at h
            rw [← h.2]
            exact ⟨by simpa using hb1, by simpa using hb2⟩
          · split at h
            · refine ih _ _ _ _ _ ?_ ?_ h
              · simpa using hb1
              · simpa using hb2
            · split at h
              · simp only [Option.some.injEq, Prod.mk.injEq] at h
                rw [← h.2]
                exact ⟨by simpa using hb1, by simpa using hb2⟩
              · simp at h

/-- A write-loop run that returns an error accepted nothing: the error codes
are only returned when copied is still zero, and in that case the channel
state is exactly the input state. -/
theorem write_go_err_nothing (bufsize : Nat) (allocOk nonblock intr : Bool) :
    ∀ fuel t ubuf copied r t2,
      thread_with_stdio_write_go bufsize allocOk nonblock intr t ubuf copied fuel =
        some (r, t2) →
      r < 0 →
      copied = 0 ∧ t2 = t := by
  intro fuel
  induction fuel with
  | zero =>
    intro t ubuf copied r t2 h hr
    simp [thread_with_stdio_write_go] at h
  | succ fuel ih =>
    intro t ubuf copied r t2 h hr
    rw [write_go_succ] at h
    split at h
    · exfalso
      simp only [Option.some.injEq, Prod.mk.injEq] at h
      rw [← h.1] at hr
      unfold ret0 at hr
      split at hr <;> omega
    · next hlen0 =>
      split at h
      · simp only [Option.some.injEq, Prod.mk.injEq] at h
        rw [← h.1] at hr
        unfold ret0 at hr
        split at hr
        · omega
        · next hc =>
          simp only [ne_eq, not_not] at hc
          exact ⟨hc, h.2.symm⟩
      · split at h
        · next hbne =>
          obtain ⟨hc, -⟩ := ih _ _ _ _ _ h hr
          exact absurd hc (by omega)
        · next hbz =>
          simp only [ne_eq, not_not] at hbz
          have hroom : darray_room
              (write_iter_buf1 bufsize allocOk t.stdio.input.buf ubuf.length) = 0 := by
            unfold write_iter_b at hbz
            omega
          have hbuf : write_iter_buf1 bufsize allocOk t.stdio.input.buf ubuf.length =
              t.stdio.input.buf :=
            write_iter_buf1_no_room_unchanged _ _ _ _ hroom
          rw [hbuf, write_push_self] at h
          split at h
          · simp only [Option.some.injEq, Prod.mk.injEq] at h
            rw [← h.1] at hr
            unfold ret0 at hr
            split at hr
            · omega
            · next hc =>
              simp only [ne_eq, not_not] at hc
              exact ⟨hc, h.2.symm⟩
          · split at h
            · exact ih _ _ _ _ _ h hr
            · split at h
              · simp only [Option.some.injEq, Prod.mk.injEq] at h
                rw [← h.1] at hr
                unfold ret0 at hr
                split at hr
                · omega
                · next hc =>
                  simp only [ne_eq, not_not] at hc
                  exact ⟨hc, h.2.symm⟩
              · simp at h

/-! ## Claim C4: the input buffer never exceeds the nominal capacity -/

/-- Claim C4: for every terminating caller-side write, if the input buffer
starts within the 4096-byte capacity (as it does from initialisation and
under every operation), it ends within it: each iteration grows the
allocation only up to capacity and copies only what fits in it; and the
write path leaves the output buffer untouched, so only the output-side
formatted-write path could ever grow a buffer past the nominal capacity. -/
theorem C4_theorem (allocOk nonblock intr : Bool) (t : thread_with_stdio)
    (ubuf : List Nat) (copied fuel : Nat) (r : Int) (t2 : thread_with_stdio)
    (h1 : t.stdio.input.buf.nr ≤ STDIO_REDIRECT_BUFSIZE)
    (h2 : t.stdio.input.buf.size ≤ STDIO_REDIRECT_BUFSIZE)
    (h : thread_with_stdio_write_go STDIO_REDIRECT_BUFSIZE allocOk nonblock intr
      t ubuf copied fuel = some (r, t2)) :
    t2.stdio.input.buf.nr ≤ STDIO_REDIRECT_BUFSIZE ∧
    t2.stdio.input.buf.size ≤ STDIO_REDIRECT_BUFSIZE ∧
    t2.stdio.output = t.stdio.output := by
  obtain ⟨hb1, hb2⟩ :=
    write_go_input_bound STDIO_REDIRECT_BUFSIZE allocOk nonblock intr
      fuel t ubuf copied r t2 h1 h2 h
  exact ⟨hb1, hb2, (write_go_preserve STDIO_REDIRECT_BUFSIZE allocOk nonblock intr
    fuel t ubuf copied r t2 h).2.2⟩

/-- Claim C4 witness: a write of three bytes into the empty channel ends
with an input buffer of length 3 and size 3, within capacity, and leaves
the output untouched. -/
theorem C4_witness :
    (⟨false, ⟨⟨⟨[1, 2, 3], 3⟩⟩, ⟨⟨[], 0⟩⟩, false⟩⟩ :
        thread_with_stdio).stdio.input.buf.nr ≤ STDIO_REDIRECT_BUFSIZE ∧
    (⟨false, ⟨⟨⟨[1, 2, 3], 3⟩⟩, ⟨⟨[], 0⟩⟩, false⟩⟩ :
        thread_with_stdio).stdio.input.buf.size ≤ STDIO_REDIRECT_BUFSIZE ∧
    (⟨false, ⟨⟨⟨[1, 2, 3], 3⟩⟩, ⟨⟨[], 0⟩⟩, false⟩⟩ :
        thread_with_stdio).stdio.output =
      (⟨false, ⟨⟨⟨[], 0⟩⟩, ⟨⟨[], 0⟩⟩, false⟩⟩ : thread_with_stdio).stdio.output :=
  C4_theorem true true false ⟨false, ⟨⟨⟨[], 0⟩⟩, ⟨⟨[], 0⟩⟩, false⟩⟩ [1, 2, 3] 0 5 3
    ⟨false, ⟨⟨⟨[1, 2, 3], 3⟩⟩, ⟨⟨[], 0⟩⟩, false⟩⟩ (by decide) (by decide) rfl

/-! ## Claim C5: writes after close -/

/-- Claim C5 counterexample: the worker-facing formatted write invoked after
the channel is closed accepts no bytes yet does not fail with BrokenPipe: the
source function is void, so the model returns a plain successful state, here
unchanged, with the message silently discarded. -/
theorem C5_counterexample :
    stdio_redirect_vprintf STDIO_REDIRECT_BUFSIZE ⟨⟨⟨[], 0⟩⟩, ⟨⟨[], 0⟩⟩, true⟩
        true true [72, 105] =
      some ⟨⟨⟨[], 0⟩⟩, ⟨⟨[], 0⟩⟩, true⟩ := rfl

/-- Claim C5 as amended: the caller-facing write of a nonzero number of
bytes invoked after close accepts nothing and fails with EPIPE; more
generally an error return from the write loop means nothing was accepted
and the state is untouched (so when some bytes were accepted the total is
returned instead of the error); the worker-facing formatted write after
close does not fail: it returns normally and silently discards the data. -/
theorem C5_theorem :
    (∀ bufsize allocOk nonblock intr t ubuf fuel, t.thr_done = true → ubuf ≠ [] →
      thread_with_stdio_write_go bufsize allocOk nonblock intr t ubuf 0 (fuel + 1) =
        some (-EPIPE, t)) ∧
    (∀ bufsize allocOk nonblock intr t ubuf copied fuel r t2,
      thread_with_stdio_write_go bufsize allocOk nonblock intr t ubuf copied fuel =
        some (r, t2) → r < 0 → copied = 0 ∧ t2 = t) ∧
    (∀ bufsize st nonblocking allocOk s, st.done = true →
      stdio_redirect_vprintf bufsize st nonblocking allocOk s = some st) := by
  refine ⟨?_, ?_, ?_⟩
  · intro bufsize allocOk nonblock intr t ubuf fuel hdone hne
    rw [write_go_succ]
    simp [List.length_eq_zero, hne, hdone, ret0]
  · intro bufsize allocOk nonblock intr t ubuf copied fuel r t2 h hr
    exact write_go_err_nothing bufsize allocOk nonblock intr fuel t ubuf copied r t2 h hr
  · intro bufsize st nonblocking allocOk s hdone
    have hsp : stdio_redirect_has_output_space bufsize st = true := by
      simp [stdio_redirect_has_output_space, hdone]
    unfold stdio_redirect_vprintf
    cases nonblocking <;> simp [hsp, hdone]

/-- Claim C5 witness: a blocking two-byte write on a closed channel returns
EPIPE leaving the state untouched, and a blocking formatted write on a
closed channel returns the unchanged state with no error. -/
theorem C5_witness :
    thread_with_stdio_write_go 8 true false false
        ⟨true, ⟨⟨⟨[], 8⟩⟩, ⟨⟨[], 0⟩⟩, true⟩⟩ [1, 2] 0 3 =
      some (-EPIPE, ⟨true, ⟨⟨⟨[], 8⟩⟩, ⟨⟨[], 0⟩⟩, true⟩⟩) ∧
    stdio_redirect_vprintf 8 ⟨⟨⟨[], 0⟩⟩, ⟨⟨[7], 8⟩⟩, true⟩ false true [9] =
      some ⟨⟨⟨[], 0⟩⟩, ⟨⟨[7], 8⟩⟩, true⟩ := by
  constructor
  · exact C5_theorem.1 8 true false false ⟨true, ⟨⟨⟨[], 8⟩⟩, ⟨⟨[], 0⟩⟩, true⟩⟩
      [1, 2] 2 rfl (by decide)
  · exact C5_theorem.2.2 8 ⟨⟨⟨[], 0⟩⟩, ⟨⟨[7], 8⟩⟩, true⟩ false true [9] rfl

/-! ## Claim C8: the closed flag is monotonic, markClosed idempotent -/

/-- Claim C8: thread_with_stdio_done is idempotent, sets both done flags and
wakes both buffers' wait queues; and no modeled operation of the system ever
changes a done flag: the worker read, the formatted write, the caller write
loop and the caller read all preserve both flags exactly, so once set the
flag never reverts. -/
theorem C8_theorem :
    (∀ t, thread_with_stdio_done (thread_with_stdio_done t).1 =
      thread_with_stdio_done t) ∧
    (∀ t, (thread_with_stdio_done t).1.thr_done = true ∧
      (thread_with_stdio_done t).1.stdio.done = true) ∧
    (∀ t, (thread_with_stdio_done t).2 =
      [wait_queue.input_wait, wait_queue.output_wait]) ∧
    (∀ st len r st2 o, stdio_redirect_read st len = some (r, st2, o) →
      st2.done = st.done) ∧
    (∀ bufsize st nonblocking allocOk s st2,
      stdio_redirect_vprintf bufsize st nonblocking allocOk s = some st2 →
      st2.done = st.done) ∧
    (∀ bufsize allocOk nonblock intr t ubuf copied fuel r t2,
      thread_with_stdio_write_go bufsize allocOk nonblock intr t ubuf copied fuel =
        some (r, t2) →
      t2.thr_done = t.thr_done ∧ t2.stdio.done = t.stdio.done) ∧
    (∀ t nonblock intr len r t2 o,
      thread_with_stdio_read t nonblock intr len = some (r, t2, o) →
      t2.thr_done = t.thr_done ∧ t2.stdio.done = t.stdio.done) := by
  refine ⟨fun t => rfl, fun t => ⟨rfl, rfl⟩, fun t => rfl, ?_, ?_, ?_, ?_⟩
  · intro st len r st2 o h
    unfold stdio_redirect_read at h
    split at h
    · split at h
      · simp only [Option.some.injEq, Prod.mk.injEq] at h
        rw [← h.2.1]
      · simp only [Option.some.injEq, Prod.mk.injEq] at h
        rw [← h.2.1]
    · simp at h
  · intro bufsize st nonblocking allocOk s st2 h
    unfold stdio_redirect_vprintf at h
    split at h
    · split at h
      · simp at h
      · split at h
        · simp only [Option.some.injEq] at h
          subst h
          rfl
        · simp only [Option.some.injEq] at h
          subst h
          rfl
    · split at h
      · simp only [Option.some.injEq] at h
        subst h
        rfl
      · split at h
        · simp only [Option.some.injEq] at h
          subst h
          rfl
        · simp only [Option.some.injEq] at h
          subst h
          rfl
  · intro bufsize allocOk nonblock intr t ubuf copied fuel r t2 h
    have hp := write_go_preserve bufsize allocOk nonblock intr fuel t ubuf copied r t2 h
    exact ⟨hp.1, hp.2.1⟩
  · intro t nonblock intr len r t2 o h
    unfold thread_with_stdio_read at h
    split at h
    · split at h
      · simp only [Option.some.injEq, Prod.mk.injEq] at h
        rw [← h.2.1]
        exact ⟨rfl, rfl⟩
      · simp only [Option.some.injEq, Prod.mk.injEq] at h
        rw [← h.2.1]
        exact ⟨rfl, rfl⟩
    · split at h
      · simp only [Option.some.injEq, Prod.mk.injEq] at h
        rw [← h.2.1]
        exact ⟨rfl, rfl⟩
      · split at h
        · simp only [Option.some.injEq, Prod.mk.injEq] at h
          rw [← h.2.1]
          exact ⟨rfl, rfl⟩
        · simp at h

/-- Claim C8 witness: idempotence of thread_with_stdio_done at a concrete
state with data in both buffers, and done-preservation of a concrete worker
read on a closed channel. -/
theorem C8_witness :
    thread_with_stdio_done
        (thread_with_stdio_done ⟨false, ⟨⟨⟨[1], 4⟩⟩, ⟨⟨[2], 4⟩⟩, false⟩⟩).1 =
      thread_with_stdio_done ⟨false, ⟨⟨⟨[1], 4⟩⟩, ⟨⟨[2], 4⟩⟩, false⟩⟩ ∧
    (⟨⟨⟨[5], 8⟩⟩, ⟨⟨[], 0⟩⟩, true⟩ : stdio_redirect).done =
      (⟨⟨⟨[5], 8⟩⟩, ⟨⟨[], 0⟩⟩, true⟩ : stdio_redirect).done := by
  constructor
  · exact C8_theorem.1 ⟨false, ⟨⟨⟨[1], 4⟩⟩, ⟨⟨[2], 4⟩⟩, false⟩⟩
  · exact C8_theorem.2.2.2.1 ⟨⟨⟨[5], 8⟩⟩, ⟨⟨[], 0⟩⟩, true⟩ 3 (-1)
      ⟨⟨⟨[5], 8⟩⟩, ⟨⟨[], 0⟩⟩, true⟩ [] rfl

/-! ## Readline helper lemmas -/

theorem memchr_nl_none (l : List Nat) (h : memchr_nl l = none) : 10 ∉ l := by
  induction l with
  | nil => simp
  | cons c rest ih =>
    unfold memchr_nl at h
    split at h
    · simp at h
    · next hc =>
      rw [Option.map_eq_none'] at h
      simp only [List.mem_cons, not_or]
      exact ⟨fun he => hc he.symm, ih h⟩

theorem memchr_nl_some (l : List Nat) :
    ∀ k, memchr_nl l = some k →
      ∃ p q, l = p ++ 10 :: q ∧ p.length = k ∧ 10 ∉ p := by
  induction l with
  | nil => intro k h; simp [memchr_nl] at h
  | cons c rest ih =>
    intro k h
    unfold memchr_nl at h
    split at h
    · next hc =>
      subst hc
      simp only [Option.some.injEq] at h
      exact ⟨[], rest, by simp, by simp [← h], by simp⟩
    · next hc =>
      rw [Option.map_eq_some'] at h
      obtain ⟨a, ha, hk⟩ := h
      obtain ⟨p, q, hpq, hlen, hmem⟩ := ih a ha
      refine ⟨c :: p, q, by simp [hpq], by simp [hlen, hk], ?_⟩
      simp only [List.mem_cons, not_or]
      exact ⟨fun he => hc he.symm, hmem⟩

/-- A list of bytes is line shaped when it contains no newline at all, or
exactly one newline as its final byte: the shape of what one readline call
accumulates. -/
def line_shaped (l : List Nat) : Prop :=
  10 ∉ l ∨ ∃ p, l = p ++ [10] ∧ 10 ∉ p

theorem line_shaped_nil : line_shaped [] := Or.inl (by simp)

theorem line_shaped_append_of_not_mem (c l : List Nat) (hc : 10 ∉ c)
    (h : line_shaped l) : line_shaped (c ++ l) := by
  rcases h with h | ⟨p, rfl, hp⟩
  · left
    simp only [List.mem_append, not_or]
    exact ⟨hc, h⟩
  · right
    refine ⟨c ++ p, by simp, ?_⟩
    simp only [List.mem_append, not_or]
    exact ⟨hc, hp⟩

/-- The byte count consumed by one readline iteration. -/
def readline_b (buf : darray_char) (len : Nat) : Nat :=
  match memchr_nl (buf.data.take (min len buf.nr)) with
  | some k => min (min len buf.nr) (k + 1)
  | none => min len buf.nr

theorem readline_b_le_len (buf : darray_char) (len : Nat) :
    readline_b buf len ≤ len := by
  unfold readline_b
  split
  · exact le_trans (min_le_left _ _) (min_le_left _ _)
  · exact min_le_left _ _

theorem readline_b_le_nr (buf : darray_char) (len : Nat) :
    readline_b buf len ≤ buf.data.length := by
  unfold readline_b
  have : min len buf.nr ≤ buf.data.length := by
    simp only [darray_char.nr]
    exact min_le_right _ _
  split
  · exact le_trans (min_le_left _ _) this
  · exact this

/-- One unfolding step of the readline loop with the branch structure
explicit. -/
theorem readline_go_succ (doneAt : Nat → Bool) (fuel i : Nat)
    (buf : darray_char) (len : Nat) (acc : List Nat) :
    stdio_redirect_readline_go doneAt (fuel + 1) i buf len acc =
      (if buf.nr = 0 ∧ doneAt i = false then
        stdio_redirect_readline_go doneAt fuel (i + 1) buf len acc
      else if doneAt i then
        some (if acc.length ≠ 0 then (acc.length : Int) else -1, buf, acc)
      else if memchr_nl (buf.data.take (min len buf.nr)) = none ∧
          len - readline_b buf len ≠ 0 then
        stdio_redirect_readline_go doneAt fuel (i + 1)
          (darray_remove_items buf (readline_b buf len))
          (len - readline_b buf len) (acc ++ buf.data.take (readline_b buf len))
      else
        some (((acc ++ buf.data.take (readline_b buf len)).length : Int),
          darray_remove_items buf (readline_b buf len),
          acc ++ buf.data.take (readline_b buf len))) := rfl

/-- Full characterisation of a terminating readline loop run: the output
extends acc by exactly the bytes removed from the front of the buffer, in
order and at most len of them; the removed bytes contain a newline only as
their final byte; the return value is Closed only with nothing accumulated
and only when the done flag was observed; and a run that stops without a
newline either exhausted len or observed the done flag. -/
theorem readline_go_spec (doneAt : Nat → Bool) :
    ∀ fuel i buf len acc r buf2 out,
      stdio_redirect_readline_go doneAt fuel i buf len acc = some (r, buf2, out) →
      ∃ d, out = acc ++ d ∧ buf.data = d ++ buf2.data ∧ buf2.size = buf.size ∧
        d.length ≤ len ∧ line_shaped d ∧
        (r = -1 ∨ r = (out.length : Int)) ∧
        (r = -1 → out = []) ∧
        (r = -1 → ∃ k, doneAt k = true) ∧
        (10 ∉ d → d.length = len ∨ ∃ k, doneAt k = true) := by
  intro fuel
  induction fuel with
  | zero =>
    intro i buf len acc r buf2 out h
    simp [stdio_redirect_readline_go] at h
  | succ fuel ih =>
    intro i buf len acc r buf2 out h
    rw [readline_go_succ] at h
    split at h
    · obtain ⟨d, h1, h2, h3, h4, h5, h6, h7, h8, h9⟩ :=
        ih (i + 1) buf len acc r buf2 out h
      exact ⟨d, h1, h2, h3, h4, h5, h6, h7, h8, fun hn => (h9 hn).imp id id⟩
    · split at h
      · next hdi =>
        simp only [Option.some.injEq, Prod.mk.injEq] at h
        obtain ⟨hr, hb2, hout⟩ := h
        subst hb2
        subst hout
        refine ⟨[], by simp, rfl, rfl, Nat.zero_le _, line_shaped_nil,
          ?_, ?_, fun _ => ⟨i, hdi⟩, fun _ => Or.inr ⟨i, hdi⟩⟩
        · rw [← hr]
          split
          · right
            simp
          · left
            rfl
        · intro h1
          rw [← hr] at h1
          split at h1
          · exfalso
            omega
          · next hc =>
            simp only [ne_eq, not_not, List.length_eq_zero] at hc
            simp [hc]
      · next hdi =>
        split at h
        · next hcr =>
          obtain ⟨hnl, hlen2⟩ := hcr
          obtain ⟨d, h1, h2, h3, h4, h5, h6, h7, h8, h9⟩ :=
            ih (i + 1) (darray_remove_items buf (readline_b buf len))
              (len - readline_b buf len)
              (acc ++ buf.data.take (readline_b buf len)) r buf2 out h
          have hBlen : readline_b buf len ≤ len := readline_b_le_len buf len
          have hBnr : readline_b buf len ≤ buf.data.length := readline_b_le_nr buf len
          have hB : readline_b buf len = min len buf.nr := by
            simp only [readline_b, hnl]
          have hchunk : 10 ∉ buf.data.take (readline_b buf len) := by
            rw [hB]
            exact memchr_nl_none _ hnl
          refine ⟨buf.data.take (readline_b buf len) ++ d, ?_, ?_, ?_, ?_, ?_,
            h6, h7, h8, ?_⟩
          · rw [h1, List.append_assoc]
          · rw [List.append_assoc, ← h2]
            simp [darray_remove_items]
          · exact h3
          · simp only [List.length_append, List.length_take]
            omega
          · exact line_shaped_append_of_not_mem _ _ hchunk h5
          · intro hnm
            simp only [List.mem_append, not_or] at hnm
            rcases h9 hnm.2 with h9a | h9b
            · left
              simp only [List.length_append, List.length_take]
              omega
            · exact Or.inr h9b
        · next hcr =>
          simp only [Option.some.injEq, Prod.mk.injEq] at h
          obtain ⟨hr, hb2, hout⟩ := h
          subst hb2
          subst hout
          have hBlen : readline_b buf len ≤ len := readline_b_le_len buf len
          have hBnr : readline_b buf len ≤ buf.data.length := readline_b_le_nr buf len
          refine ⟨buf.data.take (readline_b buf len), rfl, ?_, rfl, ?_, ?_,
            Or.inr hr.symm, ?_, ?_, ?_⟩
          · simp [darray_remove_items]
          · simp only [List.length_take]
            omega
          · rcases hnl : memchr_nl (buf.data.take (min len buf.nr)) with _ | k
            · have hB : readline_b buf len = min len buf.nr := by
                simp only [readline_b, hnl]
              left
              rw [hB]
              exact memchr_nl_none _ hnl
            · obtain ⟨p, q, hpq, hplen, hpmem⟩ := memchr_nl_some _ k hnl
              have hk1 : k + 1 ≤ min len buf.nr := by
                have := congrArg List.length hpq
                simp only [List.length_take, List.length_append,
                  List.length_cons, darray_char.nr] at this ⊢
                omega
              have hB : readline_b buf len = k + 1 := by
                simp only [readline_b, hnl]
                exact min_eq_right hk1
              have hd : buf.data.take (readline_b buf len) = p ++ [10] := by
                rw [hB]
                have ht : buf.data.take (k + 1) =
                    (buf.data.take (min len buf.nr)).take (k + 1) := by
                  rw [List.take_take, min_eq_left hk1]
                rw [ht, hpq, List.take_append_eq_append_take]
                have hp1 : p.take (k + 1) = p :=
                  List.take_of_length_le (by omega)
                rw [hp1, hplen]
                simp
              right
              exact ⟨p, hd, hpmem⟩
          · intro h1
            rw [← hr] at h1
            exfalso
            omega
          · intro h1
            rw [← hr] at h1
            exfalso
            omega
          · intro hnm
            rcases hnl : memchr_nl (buf.data.take (min len buf.nr)) with _ | k
            · have hB : readline_b buf len = min len buf.nr := by
                simp only [readline_b, hnl]
              have hlen2 : len - readline_b buf len = 0 := by
                by_contra hne
                exact hcr ⟨hnl, hne⟩
              left
              simp only [List.length_take]
              simp only [darray_char.nr] at hB
              omega
            · exfalso
              obtain ⟨p, q, hpq, hplen, hpmem⟩ := memchr_nl_some _ k hnl
              have hk1 : k + 1 ≤ min len buf.nr := by
                have := congrArg List.length hpq
                simp only [List.length_take, List.length_append,
                  List.length_cons, darray_char.nr] at this ⊢
                omega
              have hB : readline_b buf len = k + 1 := by
                simp only [readline_b, hnl]
                exact min_eq_right hk1
              have hd : buf.data.take (readline_b buf len) = p ++ [10] := by
                rw [hB]
                have ht : buf.data.take (k + 1) =
                    (buf.data.take (min len buf.nr)).take (k + 1) := by
                  rw [List.take_take, min_eq_left hk1]
                rw [ht, hpq, List.take_append_eq_append_take]
                have hp1 : p.take (k + 1) = p :=
                  List.take_of_length_le (by omega)
                rw [hp1, hplen]
                simp
              rw [hd] at hnm
              exact hnm (by simp)

/-! ## Claim C2: readline stopping conditions and partial lines -/

/-- Claim C2 counterexample: with the channel already closed and the partial
line 97, 98 still buffered, readline returns -1 (Closed) with zero bytes
copied, leaving the partial line unreturned, whereas the claim says the
buffered partial bytes are returned once rather than discarded. -/
theorem C2_counterexample :
    stdio_redirect_readline (fun _ => true) ⟨[97, 98], 4096⟩ 100 5 =
      some (-1, ⟨[97, 98], 4096⟩, []) ∧ ([97, 98] : List Nat) ≠ [] := by
  exact ⟨rfl, by decide⟩

/-- Claim C2 as amended: a terminating readline copies from the front of the
input, in order and without duplication or loss, at most maxLen bytes, with a
newline only as the final byte copied (it stops at the first newline); it
returns Closed exactly when it copied zero bytes while observing the done
flag, and otherwise returns the count accumulated — so bytes copied before a
mid-call close are returned once; but if the channel is already closed when
the call begins, a buffered partial line is not returned: the call returns
Closed at once and leaves the buffer as it was. -/
theorem C2_theorem (doneAt : Nat → Bool) (buf : darray_char) (len : Nat) :
    (∀ fuel r buf2 out,
      stdio_redirect_readline doneAt buf len fuel = some (r, buf2, out) →
      buf.data = out ++ buf2.data ∧ buf2.size = buf.size ∧
      out.length ≤ len ∧ line_shaped out ∧
      (r = -1 ∨ r = (out.length : Int)) ∧
      (r = -1 → out = []) ∧
      (r = -1 → ∃ k, doneAt k = true) ∧
      (10 ∉ out → out.length = len ∨ ∃ k, doneAt k = true)) ∧
    (∀ fuel, doneAt 0 = true →
      stdio_redirect_readline doneAt buf len (fuel + 1) = some (-1, buf, [])) := by
  constructor
  · intro fuel r buf2 out h
    obtain ⟨d, h1, h2, h3, h4, h5, h6, h7, h8, h9⟩ :=
      readline_go_spec doneAt fuel 0 buf len [] r buf2 out h
    simp only [List.nil_append] at h1
    subst h1
    exact ⟨h2, h3, h4, h5, h6, h7, h8, h9⟩
  · intro fuel h0
    unfold stdio_redirect_readline
    rw [readline_go_succ]
    simp [h0]

/-- Claim C2 witness: reading the buffered bytes 72, 105, 10, 88 with
maxLen 10 on an open channel stops after the newline, returning a line
shaped output; and on a channel closed from the start the buffered partial
line 97, 98 gives an immediate Closed with nothing copied. -/
theorem C2_witness :
    line_shaped [72, 105, 10] ∧
    stdio_redirect_readline (fun _ => true) ⟨[97, 98], 8⟩ 5 1 =
      some (-1, ⟨[97, 98], 8⟩, []) := by
  constructor
  · exact ((C2_theorem (fun _ => false) ⟨[72, 105, 10, 88], 8⟩ 10).1
      3 3 ⟨[88], 8⟩ [72, 105, 10] rfl).2.2.2.1
  · exact (C2_theorem (fun _ => true) ⟨[97, 98], 8⟩ 5).2 0 rfl
